import Mathlib

/-!
Verification development for the job-distribution and worker-lifecycle
coordinator of the `ai-web-automation-suite` repository.

The definitions below are a shallow embedding of the TypeScript source:

* `Worker.assignJob`, `Worker.completeJob` — `src/automation-master/src/models/Worker.ts`
* `JobRec.updateStatus`                    — Job model (`JobSchema.methods.updateStatus`)
* `createJob`, `createBatchJobs`, `generateUrls`, `generateNames`,
  `getVariation`, `assignJobToWorker`, `cancelJob`
                                           — `src/automation-master/src/services/JobService.ts`
* `heartbeatPost`                          — `src/automation-master/src/app/api/workers/[id]/heartbeat/route.ts`

JavaScript numbers are embedded as `Int` where the code only ever adds,
subtracts and compares integers, and as `Rat` (exact rationals) where the
code divides (success rate, average duration).  JavaScript truthiness of
`x || d` on numbers (where `0` is falsy) and on strings (where `""` is
falsy) is made explicit by the `jsOr*` helpers.
-/

namespace AutoSuite

/-- Worker status enum from `Worker.ts` (`'online' | 'offline' | 'busy' |
'maintenance' | 'error'`). -/
inductive WStatus
  | online
  | offline
  | busy
  | maintenance
  | error
deriving DecidableEq, Repr

/-- Job status enum from the Job model (`'pending' | 'queued' | 'running' |
'completed' | 'failed' | 'cancelled'`). -/
inductive JStatus
  | pending
  | queued
  | running
  | completed
  | failed
  | cancelled
deriving DecidableEq, Repr

/-- Job type enum from the Job model (`'single' | 'batch' | 'scheduled'`). -/
inductive JType
  | single
  | batch
  | scheduled
deriving DecidableEq, Repr

/-- `capabilities` sub-document of a Worker (only the fields the
coordinator logic reads). -/
structure WCapabilities where
  maxConcurrentJobs : Int
deriving DecidableEq, Repr

/-- `resources` sub-document of a Worker. -/
structure WResources where
  currentJobs : Int
  totalJobsProcessed : Nat
  successRate : Rat
  averageJobDuration : Rat
deriving DecidableEq, Repr

/-- `configuration.priorityFilter` sub-document of a Worker. -/
structure WPriorityFilter where
  min : Int
  max : Int
deriving DecidableEq, Repr

/-- `configuration` sub-document of a Worker (only `priorityFilter` is read
by the scheduler). -/
structure WConfiguration where
  priorityFilter : WPriorityFilter
deriving DecidableEq, Repr

/-- A Worker document, restricted to the fields the coordination logic in
`Worker.ts` and `JobService.ts` reads or writes. -/
structure Worker where
  identifier : String
  status : WStatus
  capabilities : WCapabilities
  resources : WResources
  configuration : WConfiguration
deriving DecidableEq, Repr

/-- `WorkerSchema.methods.assignJob` (`Worker.ts` lines 310–316):
increment `resources.currentJobs`; if the new count reaches
`capabilities.maxConcurrentJobs` the status becomes `busy`.  Note the
increment itself is unconditional — there is no capacity guard inside the
method. -/
def Worker.assignJob (w : Worker) : Worker :=
  let cj := w.resources.currentJobs + 1
  { w with
    resources := { w.resources with currentJobs := cj }
    status := if cj ≥ w.capabilities.maxConcurrentJobs then WStatus.busy else w.status }

/-- `WorkerSchema.methods.completeJob` (`Worker.ts` lines 318–338):
decrement `currentJobs` (floored at 0 via `Math.max(0, …)`), bump
`totalJobsProcessed`, fold the outcome into the rolling `successRate` and
`averageJobDuration` via the incremental weighted formula, and revert the
status to `online` when below capacity.  `totalJobs` in the source is the
post-increment count, so `totalJobs - 1` is the old count. -/
def Worker.completeJob (w : Worker) (success : Bool) (duration : Rat) : Worker :=
  let cj := max 0 (w.resources.currentJobs - 1)
  let totalJobs : Nat := w.resources.totalJobsProcessed + 1
  let s : Rat := if success then 1 else 0
  let newSuccessCount := w.resources.successRate * ((totalJobs : Rat) - 1) + s
  let newRate := newSuccessCount / (totalJobs : Rat)
  let newAvg :=
    (w.resources.averageJobDuration * ((totalJobs : Rat) - 1) + duration) / (totalJobs : Rat)
  { w with
    resources :=
      { currentJobs := cj
        totalJobsProcessed := totalJobs
        successRate := newRate
        averageJobDuration := newAvg }
    status :=
      if cj < w.capabilities.maxConcurrentJobs then WStatus.online else w.status }

/-- One event in a worker's assignment/completion history. -/
inductive WOp
  | assign
  | complete (success : Bool) (duration : Rat)
deriving DecidableEq, Repr

/-- Apply one assignment/completion event to a worker. -/
def applyWOp (w : Worker) : WOp → Worker
  | WOp.assign => w.assignJob
  | WOp.complete s d => w.completeJob s d

/-- Run a sequence of assignment/completion events. -/
def runWOps (w : Worker) (ops : List WOp) : Worker :=
  ops.foldl applyWOp w

/-- A history is guarded when every `assign` event happens while the worker
is strictly below capacity — this is exactly the eligibility condition the
scheduler (`assignJobToWorker`) checks before it calls `assignJob`. -/
def guardedRun (w : Worker) : List WOp → Bool
  | [] => true
  | op :: rest =>
    (match op with
      | WOp.assign =>
          decide (w.resources.currentJobs < w.capabilities.maxConcurrentJobs)
      | WOp.complete _ _ => true)
    && guardedRun (applyWOp w op) rest

/-- `execution` sub-document of a Job.  Timestamps are milliseconds since
the epoch, embedded as `Int`. -/
structure JExecution where
  startTime : Option Int
  endTime : Option Int
  duration : Option Int
  attempts : Nat
  lastAttempt : Option Int
deriving DecidableEq, Repr

/-- A Job document, restricted to the fields the coordination logic reads
or writes.  `jtype` embeds the source field `type` (a Lean keyword-ish
name, renamed for clarity), `tags` the `metadata.tags` array and
`updatedAt` the `metadata.updatedAt` timestamp. -/
structure JobRec where
  id : String
  name : String
  url : String
  jtype : JType
  priority : Int
  status : JStatus
  assignedWorker : Option String
  execution : JExecution
  tags : List String
  updatedAt : Int
deriving DecidableEq, Repr

/-- `JobSchema.methods.updateStatus` (Job model, lines 242–262): set the
requested status unconditionally, stamp `metadata.updatedAt`; on `running`
set `execution.startTime`/`lastAttempt` and bump `execution.attempts`; on
`completed`/`failed` set `execution.endTime` and, when a start time exists,
`execution.duration = endTime - startTime`.  The method performs no
transition validation of any kind. -/
def JobRec.updateStatus (j : JobRec) (s : JStatus) (t : Int) : JobRec :=
  let ex :=
    if s = JStatus.running then
      { j.execution with
        startTime := some t
        attempts := j.execution.attempts + 1
        lastAttempt := some t }
    else if s = JStatus.completed ∨ s = JStatus.failed then
      { j.execution with
        endTime := some t
        duration :=
          match j.execution.startTime with
          | some st => some (t - st)
          | none => j.execution.duration }
    else
      j.execution
  { j with status := s, updatedAt := t, execution := ex }

/-- The legal-transition graph as the specification states it (§4.3):
`pending → queued`, `queued → running`, `running → completed`,
`running → failed`, `{pending, queued, running} → cancelled`,
`failed → pending`.  This definition follows the spec's words (it has no
counterpart in the source) and exists only to compare the code's behaviour
against the spec's state machine. -/
def specTransitionGraph : JStatus → JStatus → Bool
  | JStatus.pending, JStatus.queued => true
  | JStatus.queued, JStatus.running => true
  | JStatus.running, JStatus.completed => true
  | JStatus.running, JStatus.failed => true
  | JStatus.pending, JStatus.cancelled => true
  | JStatus.queued, JStatus.cancelled => true
  | JStatus.running, JStatus.cancelled => true
  | JStatus.failed, JStatus.pending => true
  | _, _ => false

/-- JavaScript `x || d` on an optional number: `undefined` and `0` are
falsy, every other number is returned unchanged. -/
def jsOrInt (x : Option Int) (d : Int) : Int :=
  match x with
  | none => d
  | some n => if n = 0 then d else n

/-- JavaScript `x || d` on an optional string: `undefined` and the empty
string are falsy. -/
def jsOrStr (x : Option String) (d : String) : String :=
  match x with
  | none => d
  | some s => if s = "" then d else s

/-- `CreateJobData` from `JobService.ts` (the fields the embedded logic
reads).  `priority` is optional exactly as in the source interface. -/
structure CreateJobData where
  name : String
  url : String
  jtype : Option JType
  priority : Option Int
  tags : List String
deriving DecidableEq, Repr

/-- `JobService.createJob` (`JobService.ts` lines 109–163) combined with the
Job-schema validation that runs at `job.save()`:

* `priority: jobData.priority || 5` — absent or `0` becomes the default 5;
* `type: jobData.type || 'single'`;
* mongoose validators: `name` is required (non-empty after trim) with
  `maxlength: 255`; `url` must satisfy `new URL(...)` (embedded as the
  abstract predicate `validUrl`); `priority` has validators `min: 1`,
  `max: 10` — an out-of-range value makes `save()` throw a validation
  error, it is NOT clamped;
* a freshly created job has `status = 'pending'`, `execution.attempts = 0`;
* if the (defaulted) type is `single` the job is immediately queued via
  `queueJob`, which calls `updateStatus('queued')`. -/
def createJob (validUrl : String → Bool) (d : CreateJobData) (id : String) (t : Int) :
    Except String JobRec :=
  let pr := jsOrInt d.priority 5
  let ty := d.jtype.getD JType.single
  if d.name = "" ∨ 255 < d.name.length then
    Except.error "ValidationError: name"
  else if ¬ validUrl d.url then
    Except.error "ValidationError: Invalid URL format"
  else if ¬ (1 ≤ pr ∧ pr ≤ 10) then
    Except.error "ValidationError: priority"
  else
    let j : JobRec :=
      { id := id
        name := d.name
        url := d.url
        jtype := ty
        priority := pr
        status := JStatus.pending
        assignedWorker := none
        execution :=
          { startTime := none, endTime := none, duration := none
            attempts := 0, lastAttempt := none }
        tags := d.tags
        updatedAt := t }
    Except.ok (if ty = JType.single then j.updateStatus JStatus.queued t else j)

/-- Does the first character list occur at the head of the second? -/
def leadsWith : List Char → List Char → Bool
  | [], _ => true
  | _ :: _, [] => false
  | a :: as, b :: bs => decide (a = b) && leadsWith as bs

/-- Replace the first occurrence of `sep` in a character list by `repl`;
when `sep` does not occur, return the list unchanged. -/
def replaceFirstL (sep repl : List Char) : List Char → List Char
  | [] => []
  | c :: cs =>
      if leadsWith sep (c :: cs) then repl ++ (c :: cs).drop sep.length
      else c :: replaceFirstL sep repl cs

/-- JavaScript `String.prototype.replace` with a string pattern replaces
only the FIRST occurrence: the text before the first match, then the
replacement, then the rest of the string. -/
def replaceFirst (s sep repl : String) : String :=
  String.mk (replaceFirstL sep.data repl.data s.data)

/-- `urlPattern.type` enum from `BatchJobCreationData`
(`'sequential' | 'list' | 'pattern'`). -/
inductive UrlPatternType
  | sequential
  | list
  | patternStr
deriving DecidableEq, Repr

/-- `urlPattern` of `BatchJobCreationData` (the fields `generateUrls`
reads).  `urls`, `startNumber` and `pattern` are optional as in the
source. -/
structure UrlPattern where
  ptype : UrlPatternType
  urls : Option (List String)
  startNumber : Option Int
  pattern : Option String
deriving DecidableEq, Repr

/-- List indexing as JavaScript does it inside `generateUrls`'s `list`
branch: `urls[i % urls.length]`.  For a nonempty list and `n = i % length`
this is the real element; for the empty list JavaScript evaluates
`urls[NaN]` to `undefined`, rendered here by the out-of-bounds default
string `"undefined"`. -/
def jsIndex (l : List String) (n : Nat) : String :=
  l.getD n "undefined"

/-- `JobService.generateUrls` (`JobService.ts` lines 367–391):

* no pattern, or pattern type `sequential`: substitute
  `startNum + i` for the first `{number}` in the template, where
  `startNum = urlPattern?.startNumber || 1` (absent OR `0` gives 1) and the
  template is `urlPattern?.pattern || baseUrl + "?page={number}"`;
* pattern type `list` with a `urls` array present: cycle
  `urls[i % urls.length]`;
* anything else: repeat `baseUrl`. -/
def generateUrls (quantity : Nat) (up : Option UrlPattern) (baseUrl : String) :
    List String :=
  match up with
  | none =>
      (List.range quantity).map fun (i : Nat) =>
        replaceFirst (baseUrl ++ "?page={number}") "{number}" (toString (1 + (i : Int)))
  | some p =>
      if p.ptype = UrlPatternType.sequential then
        let startNum := jsOrInt p.startNumber 1
        let pat := jsOrStr p.pattern (baseUrl ++ "?page={number}")
        (List.range quantity).map fun (i : Nat) =>
          replaceFirst pat "{number}" (toString (startNum + (i : Int)))
      else
        match p.urls with
        | some l =>
            if p.ptype = UrlPatternType.list then
              (List.range quantity).map fun i => jsIndex l (i % l.length)
            else
              (List.range quantity).map fun _ => baseUrl
        | none => (List.range quantity).map fun _ => baseUrl

/-- `namePattern.type` enum (`'sequential' | 'custom'`). -/
inductive NamePatternType
  | sequential
  | custom
deriving DecidableEq, Repr

/-- `namePattern` of `BatchJobCreationData`.  `pre`/`suf` embed the source
fields `prefix`/`suffix`. -/
structure NamePattern where
  ptype : NamePatternType
  pre : Option String
  suf : Option String
  customNames : Option (List String)
deriving DecidableEq, Repr

/-- `JobService.generateNames` (`JobService.ts` lines 393–416): sequential
names are `` `${prefix} ${i + 1}${suffix ? ' ' + suffix : ''}` `` with
`prefix = namePattern?.prefix || baseName` and
`suffix = namePattern?.suffix || ''`; `custom` cycles through
`customNames`; anything else numbers off the base name. -/
def generateNames (quantity : Nat) (np : Option NamePattern) (baseName : String) :
    List String :=
  match np with
  | none =>
      (List.range quantity).map fun i => baseName ++ " " ++ toString (i + 1)
  | some p =>
      if p.ptype = NamePatternType.sequential then
        let pre := jsOrStr p.pre baseName
        let suf := jsOrStr p.suf ""
        (List.range quantity).map fun i =>
          pre ++ " " ++ toString (i + 1) ++ (if suf ≠ "" then " " ++ suf else "")
      else
        match p.customNames with
        | some l =>
            if p.ptype = NamePatternType.custom then
              (List.range quantity).map fun i => jsIndex l (i % l.length)
            else
              (List.range quantity).map fun i => baseName ++ " " ++ toString (i + 1)
        | none => (List.range quantity).map fun i => baseName ++ " " ++ toString (i + 1)

/-- `JobService.getVariation` (`JobService.ts` lines 418–423): an absent or
empty pool yields the default, otherwise index-modulo into the pool. -/
def getVariation {α : Type} (pool : Option (List α)) (index : Nat) (defaultValue : α) : α :=
  match pool with
  | none => defaultValue
  | some l =>
      if l.length = 0 then defaultValue
      else l.getD (index % l.length) defaultValue

/-- `variations` of `BatchJobCreationData` (the pools the embedded logic
reads). -/
structure BatchVariations where
  priorities : Option (List Int)
  tags : Option (List (List String))
deriving DecidableEq, Repr

/-- `BatchJobCreationData` (the fields the embedded expansion reads). -/
structure BatchJobCreationData where
  baseJob : CreateJobData
  quantity : Nat
  urlPattern : Option UrlPattern
  namePattern : Option NamePattern
  variations : Option BatchVariations
deriving DecidableEq, Repr

/-- The per-index `jobData` object built inside the `createBatchJobs` loop
(`JobService.ts` lines 312–326): spread of the base job, then the generated
name and URL for index `i`, then `type: 'scheduled'` (overriding whatever
the base job declared), the priority variation (default
`baseJob.priority || 5`), and the tag list
`[...baseJob.tags, 'batch-job', 'batch-<now>', ...tagVariation]`.
`now` is the millisecond timestamp `Date.now()`. -/
def batchJobDataAt (b : BatchJobCreationData) (i : Nat) (now : Int) : CreateJobData :=
  { name := (generateNames b.quantity b.namePattern b.baseJob.name).getD i "undefined"
    url := (generateUrls b.quantity b.urlPattern b.baseJob.url).getD i "undefined"
    jtype := some JType.scheduled
    priority := some (getVariation (b.variations.bind BatchVariations.priorities) i
      (jsOrInt b.baseJob.priority 5))
    tags := b.baseJob.tags ++ ["batch-job", "batch-" ++ toString now] ++
      (getVariation (b.variations.bind BatchVariations.tags) i []) }

/-- One iteration of the `createBatchJobs` loop: try the `i`-th creation,
appending the job on success and an error message on failure. -/
def batchStep (validUrl : String → Bool) (idGen : Nat → String)
    (b : BatchJobCreationData) (now : Int)
    (acc : List JobRec × List String) (i : Nat) : List JobRec × List String :=
  match createJob validUrl (batchJobDataAt b i now) (idGen i) now with
  | Except.ok j => (acc.1 ++ [j], acc.2)
  | Except.error e =>
      (acc.1, acc.2 ++ ["Failed to create job " ++ toString (i + 1) ++ ": " ++ e])

/-- `JobService.createBatchJobs` (`JobService.ts` lines 289–365), restricted
to its job-creating loop: for each index `0 ≤ i < quantity` build the
per-index job data and call `createJob`; a successful creation is appended
to the created list, a failure is recorded as an error message without
aborting the batch.  `idGen i` stands for the `nanoid()` drawn for the
`i`-th creation. -/
def createBatchJobs (validUrl : String → Bool) (idGen : Nat → String)
    (b : BatchJobCreationData) (now : Int) : List JobRec × List String :=
  (List.range b.quantity).foldl (batchStep validUrl idGen b now) ([], [])

/-- The eligibility filter of the automatic branch of
`JobService.assignJobToWorker` (`JobService.ts` lines 509–518): status
`online`, `resources.currentJobs` strictly below
`capabilities.maxConcurrentJobs` (the query's
`'resources.currentJobs': { $lt: '$capabilities.maxConcurrentJobs' }`
embedded as the field comparison it names), and the job's priority inside
the worker's inclusive `[priorityFilter.min, priorityFilter.max]` range. -/
def eligibleAuto (priority : Int) (w : Worker) : Bool :=
  decide (w.status = WStatus.online) &&
  decide (w.resources.currentJobs < w.capabilities.maxConcurrentJobs) &&
  decide (w.configuration.priorityFilter.min ≤ priority) &&
  decide (priority ≤ w.configuration.priorityFilter.max)

/-- The filter of the pinned branch of `JobService.assignJobToWorker`
(`JobService.ts` lines 500–506): identifier match, status `online`, and
strictly below capacity.  The pinned branch does NOT consult the worker's
priority filter. -/
def eligiblePinned (workerId : String) (w : Worker) : Bool :=
  decide (w.identifier = workerId) &&
  decide (w.status = WStatus.online) &&
  decide (w.resources.currentJobs < w.capabilities.maxConcurrentJobs)

/-- The strict ranking order of the automatic branch's
`sort({'resources.currentJobs': 1, 'resources.successRate': -1,
'resources.averageJobDuration': 1})`: `a` ranks strictly before `b` when it
has fewer current jobs, or equally many and a higher success rate, or both
equal and a lower average job duration. -/
def rankBefore (a b : Worker) : Bool :=
  decide (a.resources.currentJobs < b.resources.currentJobs) ||
  (decide (a.resources.currentJobs = b.resources.currentJobs) &&
    (decide (b.resources.successRate < a.resources.successRate) ||
      (decide (a.resources.successRate = b.resources.successRate) &&
        decide (a.resources.averageJobDuration < b.resources.averageJobDuration))))

/-- `availableWorkers[0]` after the sort: the first minimal element of the
candidate list under `rankBefore` (earlier elements win ties). -/
def pickBest : List Worker → Option Worker
  | [] => none
  | w :: ws => some (ws.foldl (fun best x => if rankBefore x best then x else best) w)

/-- The worker-selection logic of `JobService.assignJobToWorker`
(`JobService.ts` lines 490–547).  With a pinned `workerId` it is the
`Worker.findOne` of the pinned branch — the first worker matching
`eligiblePinned` — and with no `workerId` it is the `find`/`sort`/`[0]` of
the automatic branch over `eligibleAuto` candidates.  The function returns
the selected worker in its pre-assignment state; the source then records
the assignment on the job and calls `Worker.assignJob` on the selection
(modelled separately above). -/
def assignJobToWorker (workers : List Worker) (j : JobRec) :
    Option String → Option Worker
  | some workerId => workers.find? (eligiblePinned workerId)
  | none => pickBest (workers.filter (eligibleAuto j.priority))

/-- Outcome of `JobService.cancelJob`: the returned boolean, the job
record after the call, and the released worker (if any) after the call. -/
structure CancelOutcome where
  success : Bool
  job : Option JobRec
  worker : Option Worker
deriving DecidableEq, Repr

/-- `JobService.cancelJob` (`JobService.ts` lines 673–704): return `false`
when the job id does not resolve; otherwise call
`updateStatus('cancelled')` — which, as embedded above, applies the status
unconditionally — and, when the job has an assigned worker that resolves,
release it via `completeJob(false, 0)`; then return `true`.  `findWorker`
is the `Worker.findOne({ identifier: job.assignedWorker })` lookup. -/
def cancelJob (job? : Option JobRec) (findWorker : String → Option Worker)
    (t : Int) : CancelOutcome :=
  match job? with
  | none => { success := false, job := none, worker := none }
  | some j =>
      let j' := j.updateStatus JStatus.cancelled t
      match j.assignedWorker with
      | some wid =>
          { success := true
            job := some j'
            worker := (findWorker wid).map fun w => w.completeJob false 0 }
      | none => { success := true, job := some j', worker := none }

/-- The HTTP status of `DELETE /jobs/{id}`
(`src/automation-master/src/app/api/jobs/[id]/route.ts` lines 76–112):
200 when `cancelJob` returned `true`, 404 otherwise. -/
def deleteJobRoute (job? : Option JobRec) (findWorker : String → Option Worker)
    (t : Int) : Nat :=
  if (cancelJob job? findWorker t).success then 200 else 404

/-- `capabilities` payload of a heartbeat
(`heartbeat/route.ts` `HeartbeatData.capabilities`). -/
structure HBCapabilities where
  maxConcurrentJobs : Int
deriving DecidableEq, Repr

/-- Heartbeat request body (the fields the route handler reads). -/
structure HeartbeatData where
  status : WStatus
  currentJobs : Int
  jobsCompleted : Int
  jobsFailed : Int
  capabilities : Option HBCapabilities
deriving DecidableEq, Repr

/-- An entry of the in-memory `workerRegistry` map of
`heartbeat/route.ts`. -/
structure RegistryEntry where
  id : String
  status : WStatus
  lastSeen : Int
  currentJobs : Int
  totalJobsProcessed : Int
  totalJobsFailed : Int
  capabilities : Option HBCapabilities
deriving DecidableEq, Repr

/-- The registry: an insertion-ordered map from worker id to entry. -/
abbrev Registry := List (String × RegistryEntry)

/-- `workerRegistry.set`: replace the entry when the key exists, append it
otherwise. -/
def registrySet (reg : Registry) (k : String) (v : RegistryEntry) : Registry :=
  if (reg.lookup k).isSome then
    reg.map fun kv => if kv.1 = k then (k, v) else kv
  else
    reg ++ [(k, v)]

/-- Response of a successful heartbeat POST (the fields the claims need):
the handler always answers `success: true` with instructions and fleet
stats. -/
structure HeartbeatResponse where
  success : Bool
  maxConcurrentJobsInstruction : Int
  globalWorkerCount : Nat
deriving DecidableEq, Repr

/-- The heartbeat POST handler
(`src/automation-master/src/app/api/workers/[id]/heartbeat/route.ts`
lines 30–97): read the existing entry (`workerRegistry.get(workerId) || {}`
— an unknown id simply yields the empty object), build the updated entry
(status, lastSeen, counters; capabilities fall back to the existing entry's
via `||`), `workerRegistry.set` it, and answer `success: true` with
instructions (`maxConcurrentJobs` instruction
`heartbeatData.capabilities?.maxConcurrentJobs || 3`) and fleet stats.
There is no registration check on this path at all. -/
def heartbeatPost (reg : Registry) (workerId : String) (d : HeartbeatData)
    (t : Int) : HeartbeatResponse × Registry :=
  let existing := reg.lookup workerId
  let entry : RegistryEntry :=
    { id := workerId
      status := d.status
      lastSeen := t
      currentJobs := d.currentJobs
      totalJobsProcessed := d.jobsCompleted
      totalJobsFailed := d.jobsFailed
      capabilities :=
        match d.capabilities with
        | some c => some c
        | none => existing.bind RegistryEntry.capabilities }
  let reg' := registrySet reg workerId entry
  ( { success := true
      maxConcurrentJobsInstruction :=
        jsOrInt ((d.capabilities).map HBCapabilities.maxConcurrentJobs) 3
      globalWorkerCount := reg'.length }
  , reg' )

/-! ### Concrete fixtures used by witnesses and counterexamples -/

/-- A freshly registered worker with capacity 1 (counters zeroed, as
`registerWorker` leaves them). -/
def wC1 : Worker :=
  { identifier := "w-c1"
    status := WStatus.online
    capabilities := { maxConcurrentJobs := 1 }
    resources :=
      { currentJobs := 0, totalJobsProcessed := 0
        successRate := 0, averageJobDuration := 0 }
    configuration := { priorityFilter := { min := 1, max := 10 } } }

/-- A freshly registered worker with capacity 2. -/
def wC1w : Worker :=
  { identifier := "w-c1w"
    status := WStatus.online
    capabilities := { maxConcurrentJobs := 2 }
    resources :=
      { currentJobs := 0, totalJobsProcessed := 0
        successRate := 0, averageJobDuration := 0 }
    configuration := { priorityFilter := { min := 1, max := 10 } } }

/-- A job that has already completed. -/
def jC2 : JobRec :=
  { id := "j-c2", name := "done", url := "https://example.com"
    jtype := JType.single, priority := 5, status := JStatus.completed
    assignedWorker := none
    execution :=
      { startTime := some 0, endTime := some 10, duration := some 10
        attempts := 1, lastAttempt := some 0 }
    tags := [], updatedAt := 10 }

/-- A worker that has processed 9 jobs with 8 successes (rate 8/9). -/
def wC6 : Worker :=
  { identifier := "w-c6"
    status := WStatus.online
    capabilities := { maxConcurrentJobs := 3 }
    resources :=
      { currentJobs := 1, totalJobsProcessed := 9
        successRate := 8 / 9, averageJobDuration := 100 }
    configuration := { priorityFilter := { min := 1, max := 10 } } }

/-! ### C1 — capacity invariant of assignJob / completeJob -/

/-- `assignJob` and `completeJob` never change the declared capacity. -/
theorem applyWOp_capabilities (w : Worker) (op : WOp) :
    (applyWOp w op).capabilities = w.capabilities := by
  cases op <;> rfl

/-- Running a history never changes the declared capacity. -/
theorem runWOps_capabilities (w : Worker) (ops : List WOp) :
    (runWOps w ops).capabilities = w.capabilities := by
  induction ops generalizing w with
  | nil => rfl
  | cons op rest ih =>
      simpa [runWOps, List.foldl_cons, applyWOp_capabilities] using
        (ih (applyWOp w op)).trans (applyWOp_capabilities w op)

/-- `currentJobs` stays nonnegative across one event. -/
theorem applyWOp_nonneg (w : Worker) (op : WOp)
    (h : 0 ≤ w.resources.currentJobs) :
    0 ≤ (applyWOp w op).resources.currentJobs := by
  cases op with
  | assign =>
      simpa [applyWOp, Worker.assignJob] using
        le_trans h (by omega : w.resources.currentJobs ≤ w.resources.currentJobs + 1)
  | complete s d =>
      simp [applyWOp, Worker.completeJob]

/-- `currentJobs` stays nonnegative across a whole history. -/
theorem runWOps_nonneg (ops : List WOp) (w : Worker)
    (h : 0 ≤ w.resources.currentJobs) :
    0 ≤ (runWOps w ops).resources.currentJobs := by
  induction ops generalizing w with
  | nil => simpa [runWOps] using h
  | cons op rest ih =>
      simpa [runWOps, List.foldl_cons] using ih (applyWOp w op) (applyWOp_nonneg w op h)

/-- The capacity bound is preserved by guarded histories. -/
theorem runWOps_guarded_le (ops : List WOp) (w : Worker)
    (hm : 0 ≤ w.capabilities.maxConcurrentJobs)
    (h : w.resources.currentJobs ≤ w.capabilities.maxConcurrentJobs)
    (hg : guardedRun w ops = true) :
    (runWOps w ops).resources.currentJobs ≤
      (runWOps w ops).capabilities.maxConcurrentJobs := by
  induction ops generalizing w with
  | nil => simpa [runWOps] using h
  | cons op rest ih =>
      simp only [guardedRun, Bool.and_eq_true] at hg
      have hstep :
          (applyWOp w op).resources.currentJobs ≤
            (applyWOp w op).capabilities.maxConcurrentJobs := by
        cases op with
        | assign =>
            have hlt : w.resources.currentJobs < w.capabilities.maxConcurrentJobs := by
              have := hg.1
              simpa using of_decide_eq_true this
            simp [applyWOp, Worker.assignJob]
            omega
        | complete s d =>
            simp [applyWOp, Worker.completeJob]
            omega
      have hm' : 0 ≤ (applyWOp w op).capabilities.maxConcurrentJobs := by
        simpa [applyWOp_capabilities] using hm
      simpa [runWOps, List.foldl_cons] using ih (applyWOp w op) hm' hstep hg.2

/-- C1 (amended).  From registration (`currentJobs = 0`, nonnegative
declared capacity), `resources.currentJobs` never goes negative under ANY
sequence of `assignJob`/`completeJob` events, and it never exceeds
`capabilities.maxConcurrentJobs` for GUARDED histories — those in which
every `assignJob` happens while the worker is strictly below capacity, the
condition the scheduler checks before assigning.  (Unguarded `assignJob`
calls can exceed the capacity: see the counterexample.) -/
theorem worker_capacity_invariant (w : Worker) (ops : List WOp)
    (h0 : w.resources.currentJobs = 0)
    (hm : 0 ≤ w.capabilities.maxConcurrentJobs) :
    0 ≤ (runWOps w ops).resources.currentJobs ∧
    (guardedRun w ops = true →
      (runWOps w ops).resources.currentJobs ≤ w.capabilities.maxConcurrentJobs) := by
  refine ⟨runWOps_nonneg ops w (by omega), fun hg => ?_⟩
  have := runWOps_guarded_le ops w hm (by omega) hg
  simpa [runWOps_capabilities] using this

/-- Witness for C1: a guarded assign-then-complete history on a capacity-2
worker stays within `[0, 2]`. -/
theorem worker_capacity_invariant_witness :
    wC1w.resources.currentJobs = 0 ∧
    guardedRun wC1w [WOp.assign, WOp.complete true 5] = true ∧
    (0 ≤ (runWOps wC1w [WOp.assign, WOp.complete true 5]).resources.currentJobs ∧
      (guardedRun wC1w [WOp.assign, WOp.complete true 5] = true →
        (runWOps wC1w [WOp.assign, WOp.complete true 5]).resources.currentJobs ≤
          wC1w.capabilities.maxConcurrentJobs)) :=
  ⟨by decide, by decide,
    worker_capacity_invariant wC1w [WOp.assign, WOp.complete true 5]
      (by decide) (by decide)⟩

/-- Counterexample for C1 as stated: on a capacity-1 worker fresh from
registration, two raw `assignJob` calls drive `currentJobs` to 2, above
`maxConcurrentJobs` — the method itself has no capacity guard. -/
theorem worker_capacity_unguarded_counterexample :
    wC1.resources.currentJobs = 0 ∧
    wC1.capabilities.maxConcurrentJobs = 1 ∧
    (runWOps wC1 [WOp.assign, WOp.assign]).resources.currentJobs = 2 ∧
    ¬((runWOps wC1 [WOp.assign, WOp.assign]).resources.currentJobs ≤
        wC1.capabilities.maxConcurrentJobs) := by
  refine ⟨by decide, by decide, by decide, by decide⟩

/-! ### C2 — status updates are applied unconditionally -/

/-- C2 (amended).  `updateStatus` performs no transition validation: every
attempted status is applied (the job's status becomes exactly the requested
one), `execution.attempts` grows by one exactly on a transition into
`running`, and `execution.endTime` is stamped exactly on `completed` or
`failed`.  No `InvalidTransitionError` exists anywhere in the source. -/
theorem updateStatus_applies_any_transition (j : JobRec) (s : JStatus) (t : Int) :
    (j.updateStatus s t).status = s ∧
    (j.updateStatus s t).execution.attempts =
      j.execution.attempts + (if s = JStatus.running then 1 else 0) ∧
    (j.updateStatus s t).execution.endTime =
      (if s = JStatus.completed ∨ s = JStatus.failed then some t
        else j.execution.endTime) := by
  cases s <;> simp [JobRec.updateStatus]

/-- Counterexample for C2 as stated: the transition `completed → running`
is illegal under the spec's §4.3 graph, yet `updateStatus` applies it —
the status changes to `running` and the attempt counter is even
incremented.  Nothing is rejected and no error is raised. -/
theorem updateStatus_illegal_transition_counterexample :
    specTransitionGraph JStatus.completed JStatus.running = false ∧
    jC2.status = JStatus.completed ∧
    (jC2.updateStatus JStatus.running 20).status = JStatus.running ∧
    (jC2.updateStatus JStatus.running 20).execution.attempts =
      jC2.execution.attempts + 1 := by
  refine ⟨by decide, by decide, by decide, by decide⟩

/-! ### C6 — exact rolling success rate -/

/-- C6 (confirmed).  Over exact rational arithmetic, a worker whose
success rate is `k / n` after `n` processed jobs (`k ≤ n` successes) ends
at exactly `(k + s) / (n + 1)` after `completeJob` folds in one more
outcome `s` — the incremental weighted formula of `completeJob` coincides
with recomputation from the full history. -/
theorem completeJob_successRate_exact (w : Worker) (k n : ℕ) (s : Bool) (d : Rat)
    (hn : w.resources.totalJobsProcessed = n)
    (hk : k ≤ n)
    (hr : w.resources.successRate = (k : Rat) / (n : Rat)) :
    (w.completeJob s d).resources.successRate =
      ((k : Rat) + (if s then 1 else 0)) / ((n : Rat) + 1) := by
  have hcast : ((w.resources.totalJobsProcessed + 1 : ℕ) : Rat) = (n : Rat) + 1 := by
    rw [hn]; push_cast; ring
  simp only [Worker.completeJob, hcast, hr]
  rcases Nat.eq_zero_or_pos n with hz | hpos
  · subst hz
    have hk0 : k = 0 := Nat.le_zero.mp hk
    subst hk0
    cases s <;> norm_num
  · have hne : (n : Rat) ≠ 0 := by
      exact_mod_cast Nat.pos_iff_ne_zero.mp hpos
    field_simp

/-- Witness for C6: the spec's own example — a worker at 8/9 that
completes its 10th job successfully lands at exactly 9/10. -/
theorem completeJob_successRate_exact_witness :
    wC6.resources.totalJobsProcessed = 9 ∧
    (8 : ℕ) ≤ 9 ∧
    (wC6.completeJob true 50).resources.successRate = 9 / 10 := by
  refine ⟨by decide, by decide, ?_⟩
  have h := completeJob_successRate_exact wC6 8 9 true 50 rfl (by decide)
    (by norm_num [wC6])
  rw [h]
  norm_num

/-! ### C3 / C4 — scheduler selection -/

/-- The sort key of the automatic branch, as a lexicographic triple:
current jobs ascending, then success rate descending (negated), then
average duration ascending. -/
def wkey (w : Worker) : Int ×ₗ (Rat ×ₗ Rat) :=
  toLex (w.resources.currentJobs,
    toLex (-w.resources.successRate, w.resources.averageJobDuration))

/-- `rankBefore` is exactly the strict lexicographic order on `wkey`. -/
theorem rankBefore_iff (a b : Worker) :
    rankBefore a b = true ↔ wkey a < wkey b := by
  simp only [rankBefore, wkey, Prod.Lex.lt_iff, Bool.or_eq_true, Bool.and_eq_true,
    decide_eq_true_eq, neg_lt_neg_iff, neg_inj]

/-- The running fold of `pickBest` only ever returns the seed or a list
element. -/
theorem foldl_pick_mem (ws : List Worker) (best : Worker) :
    ws.foldl (fun b x => if rankBefore x b then x else b) best ∈ best :: ws := by
  induction ws generalizing best with
  | nil => simp
  | cons x ws ih =>
      simp only [List.foldl_cons]
      by_cases h : rankBefore x best = true
      · simp only [h, if_true]
        rcases List.mem_cons.mp (ih x) with h1 | h1
        · exact List.mem_cons.mpr (Or.inr (List.mem_cons.mpr (Or.inl h1)))
        · exact List.mem_cons.mpr (Or.inr (List.mem_cons.mpr (Or.inr h1)))
      · simp only [h]
        rcases List.mem_cons.mp (ih best) with h1 | h1
        · exact List.mem_cons.mpr (Or.inl h1)
        · exact List.mem_cons.mpr (Or.inr (List.mem_cons.mpr (Or.inr h1)))

/-- The running fold of `pickBest` returns a minimal element of
seed-plus-list under the ranking order. -/
theorem foldl_pick_min (ws : List Worker) (best : Worker) :
    ∀ u ∈ best :: ws,
      ¬ wkey u < wkey (ws.foldl (fun b x => if rankBefore x b then x else b) best) := by
  induction ws generalizing best with
  | nil =>
      intro u hu
      rcases List.mem_cons.mp hu with h | h
      · subst h; simp [lt_irrefl]
      · simp at h
  | cons x ws ih =>
      intro u hu
      simp only [List.foldl_cons]
      cases hrb : rankBefore x best with
      | true =>
          have hxb : wkey x < wkey best := (rankBefore_iff x best).mp hrb
          simp only [hrb, if_true]
          rcases List.mem_cons.mp hu with h1 | h1
          · rw [h1]
            intro hc
            exact ih x x (List.mem_cons_self x ws) (lt_trans hxb hc)
          · rcases List.mem_cons.mp h1 with h2 | h2
            · rw [h2]
              exact ih x x (List.mem_cons_self x ws)
            · exact ih x u (List.mem_cons_of_mem x h2)
      | false =>
          have hxb : ¬ wkey x < wkey best := fun hc => by
            have hb := (rankBefore_iff x best).mpr hc
            rw [hrb] at hb
            exact Bool.false_ne_true hb
          simp only [hrb, Bool.false_eq_true, if_false]
          rcases List.mem_cons.mp hu with h1 | h1
          · rw [h1]
            exact ih best best (List.mem_cons_self best ws)
          · rcases List.mem_cons.mp h1 with h2 | h2
            · rw [h2]
              intro hc
              exact ih best best (List.mem_cons_self best ws)
                (lt_of_le_of_lt (le_of_not_lt hxb) hc)
            · exact ih best u (List.mem_cons_of_mem best h2)

/-- `pickBest` returns an element of its input list. -/
theorem pickBest_mem (l : List Worker) (w : Worker) (h : pickBest l = some w) :
    w ∈ l := by
  cases l with
  | nil => simp [pickBest] at h
  | cons c cs =>
      simp only [pickBest, Option.some.injEq] at h
      subst h
      exact foldl_pick_mem cs c

/-- `pickBest` returns a minimal element under the ranking order. -/
theorem pickBest_min (l : List Worker) (w : Worker) (h : pickBest l = some w) :
    ∀ u ∈ l, rankBefore u w = false := by
  cases l with
  | nil => simp [pickBest] at h
  | cons c cs =>
      simp only [pickBest, Option.some.injEq] at h
      subst h
      intro u hu
      have := foldl_pick_min cs c u hu
      rw [← Bool.not_eq_true]
      exact fun hb => this ((rankBefore_iff _ _).mp hb)

/-- `eligibleAuto` unfolded to its four conditions. -/
theorem eligibleAuto_iff (p : Int) (w : Worker) :
    eligibleAuto p w = true ↔
      w.status = WStatus.online ∧
      w.resources.currentJobs < w.capabilities.maxConcurrentJobs ∧
      w.configuration.priorityFilter.min ≤ p ∧
      p ≤ w.configuration.priorityFilter.max := by
  simp [eligibleAuto, Bool.and_eq_true, decide_eq_true_eq, and_assoc]

/-- C3 (confirmed).  Automatic assignment selects only among workers that
are `online`, strictly below capacity, and whose inclusive priority-filter
range contains the job's priority, and the returned worker is minimal
under the lexicographic order "fewest current jobs, then highest success
rate, then lowest average duration" among all candidates; when it returns
nothing, no worker passed the filter.  In particular a worker with
`priorityFilter = {min: 5, max: 10}` is never selected for a priority-3
job, since `5 ≤ 3` fails the filter. -/
theorem assignJobToWorker_auto_spec (workers : List Worker) (j : JobRec) :
    (∀ w, assignJobToWorker workers j none = some w →
      w ∈ workers ∧
      w.status = WStatus.online ∧
      w.resources.currentJobs < w.capabilities.maxConcurrentJobs ∧
      w.configuration.priorityFilter.min ≤ j.priority ∧
      j.priority ≤ w.configuration.priorityFilter.max ∧
      (∀ u ∈ workers, eligibleAuto j.priority u = true → rankBefore u w = false)) ∧
    (assignJobToWorker workers j none = none →
      ∀ u ∈ workers, eligibleAuto j.priority u = false) := by
  constructor
  · intro w h
    simp only [assignJobToWorker] at h
    have hmem := pickBest_mem _ _ h
    have hmin := pickBest_min _ _ h
    have hw := List.mem_filter.mp hmem
    have he := (eligibleAuto_iff j.priority w).mp hw.2
    refine ⟨hw.1, he.1, he.2.1, he.2.2.1, he.2.2.2, ?_⟩
    intro u hu heu
    exact hmin u (List.mem_filter.mpr ⟨hu, heu⟩)
  · intro h u hu
    simp only [assignJobToWorker] at h
    rw [← Bool.not_eq_true]
    intro heu
    have : u ∈ workers.filter (eligibleAuto j.priority) :=
      List.mem_filter.mpr ⟨hu, heu⟩
    cases hf : workers.filter (eligibleAuto j.priority) with
    | nil => rw [hf] at this; simp at this
    | cons c cs => rw [hf] at h; simp [pickBest] at h

/-- A loaded but eligible worker: one job in flight out of three slots. -/
def wA : Worker :=
  { identifier := "w-a"
    status := WStatus.online
    capabilities := { maxConcurrentJobs := 3 }
    resources :=
      { currentJobs := 1, totalJobsProcessed := 4
        successRate := 1 / 2, averageJobDuration := 10 }
    configuration := { priorityFilter := { min := 1, max := 10 } } }

/-- An idle eligible worker. -/
def wB : Worker :=
  { identifier := "w-b"
    status := WStatus.online
    capabilities := { maxConcurrentJobs := 1 }
    resources :=
      { currentJobs := 0, totalJobsProcessed := 0
        successRate := 0, averageJobDuration := 0 }
    configuration := { priorityFilter := { min := 1, max := 10 } } }

/-- A queued priority-3 job. -/
def jW3 : JobRec :=
  { id := "j-w3", name := "low", url := "https://example.com"
    jtype := JType.single, priority := 3, status := JStatus.queued
    assignedWorker := none
    execution :=
      { startTime := none, endTime := none, duration := none
        attempts := 0, lastAttempt := none }
    tags := [], updatedAt := 0 }

/-- An idle online worker configured with `priorityFilter = {min:5, max:10}`. -/
def wPin : Worker :=
  { identifier := "w-pin"
    status := WStatus.online
    capabilities := { maxConcurrentJobs := 1 }
    resources :=
      { currentJobs := 0, totalJobsProcessed := 0
        successRate := 0, averageJobDuration := 0 }
    configuration := { priorityFilter := { min := 5, max := 10 } } }

/-- A queued priority-3 job for the pinned-assignment scenario. -/
def jP3 : JobRec :=
  { id := "j-p3", name := "low", url := "https://example.com"
    jtype := JType.single, priority := 3, status := JStatus.queued
    assignedWorker := none
    execution :=
      { startTime := none, endTime := none, duration := none
        attempts := 0, lastAttempt := none }
    tags := [], updatedAt := 0 }

/-- Witness for C3: among two eligible workers the idle one (fewest
current jobs) is selected, and it satisfies every filter condition and is
minimal under the ranking order. -/
theorem assignJobToWorker_auto_spec_witness :
    assignJobToWorker [wA, wB] jW3 none = some wB ∧
    (wB ∈ [wA, wB] ∧
      wB.status = WStatus.online ∧
      wB.resources.currentJobs < wB.capabilities.maxConcurrentJobs ∧
      wB.configuration.priorityFilter.min ≤ jW3.priority ∧
      jW3.priority ≤ wB.configuration.priorityFilter.max ∧
      (∀ u ∈ [wA, wB], eligibleAuto jW3.priority u = true → rankBefore u wB = false)) :=
  ⟨by decide, (assignJobToWorker_auto_spec [wA, wB] jW3).1 wB (by decide)⟩

/-- C4 (amended).  Pinned assignment returns a worker only if it carries
the requested identifier, is `online` and is strictly below capacity —
the pinned branch does NOT consult the worker's priority-filter range —
and when no worker passes that check it returns nothing rather than
substituting a different worker (every returned worker carries exactly the
requested identifier). -/
theorem assignJobToWorker_pinned_spec (workers : List Worker) (j : JobRec) (wid : String) :
    (∀ w, assignJobToWorker workers j (some wid) = some w →
      w.identifier = wid ∧ w ∈ workers ∧ w.status = WStatus.online ∧
      w.resources.currentJobs < w.capabilities.maxConcurrentJobs) ∧
    (assignJobToWorker workers j (some wid) = none →
      ∀ u ∈ workers, eligiblePinned wid u = false) := by
  constructor
  · intro w h
    simp only [assignJobToWorker] at h
    have hp := List.find?_some h
    have hmem := List.mem_of_find?_eq_some h
    simp only [eligiblePinned, Bool.and_eq_true, decide_eq_true_eq] at hp
    exact ⟨hp.1.1, hmem, hp.1.2, hp.2⟩
  · intro h u hu
    simp only [assignJobToWorker] at h
    rw [List.find?_eq_none] at h
    rw [← Bool.not_eq_true]
    exact h u hu

/-- Witness for C4: the pinned worker is returned when it is online and
below capacity, and it carries the requested identifier. -/
theorem assignJobToWorker_pinned_spec_witness :
    assignJobToWorker [wPin] jP3 (some "w-pin") = some wPin ∧
    (wPin.identifier = "w-pin" ∧ wPin ∈ [wPin] ∧
      wPin.status = WStatus.online ∧
      wPin.resources.currentJobs < wPin.capabilities.maxConcurrentJobs) :=
  ⟨by decide, (assignJobToWorker_pinned_spec [wPin] jP3 "w-pin").1 wPin (by decide)⟩

/-- Counterexample for C4 as stated: an online, under-capacity worker
whose priority filter is `{min: 5, max: 10}` IS returned for a pinned
assignment of a priority-3 job — the pinned branch never checks the
priority range, so the claim's "full eligibility filter" fails. -/
theorem assignJobToWorker_pinned_priority_counterexample :
    jP3.priority = 3 ∧
    wPin.configuration.priorityFilter.min = 5 ∧
    assignJobToWorker [wPin] jP3 (some "w-pin") = some wPin ∧
    ¬(wPin.configuration.priorityFilter.min ≤ jP3.priority) := by
  refine ⟨by decide, by decide, by decide, by decide⟩

/-! ### C5 — heartbeat ingestion -/

/-- Replacing the entry at key `k` makes `k` resolve to the new value
whenever `k` was present. -/
theorem lookup_map_replace (k : String) (v : RegistryEntry) (reg : Registry) :
    ((reg.map fun kv => if kv.1 = k then (k, v) else kv).lookup k) =
      if (reg.lookup k).isSome then some v else none := by
  induction reg with
  | nil => simp
  | cons hd tl ih =>
      obtain ⟨k', v'⟩ := hd
      by_cases h : k' = k
      · subst h
        simp only [List.map_cons]
        simp [List.lookup]
      · have hne : (k == k') = false := beq_false_of_ne fun hc => h hc.symm
        simp only [List.map_cons]
        rw [if_neg h]
        simp [List.lookup, hne, ih]
        rw [hne]

/-- Appending a fresh binding makes an absent key resolve to it. -/
theorem lookup_append_single (reg : Registry) (k : String) (v : RegistryEntry)
    (h : reg.lookup k = none) : ((reg ++ [(k, v)]).lookup k) = some v := by
  induction reg with
  | nil => simp [List.lookup]
  | cons hd tl ih =>
      obtain ⟨k', v'⟩ := hd
      simp only [List.cons_append, List.lookup] at h ⊢
      cases hb : (k == k') with
      | true => rw [hb] at h; simp at h
      | false => rw [hb] at h; exact ih h

/-- `registrySet` always makes the key resolve to the new entry. -/
theorem lookup_registrySet (reg : Registry) (k : String) (v : RegistryEntry) :
    ((registrySet reg k v).lookup k) = some v := by
  unfold registrySet
  by_cases h : (reg.lookup k).isSome
  · rw [if_pos h, lookup_map_replace, if_pos h]
  · rw [if_neg h]
    exact lookup_append_single reg k v (Option.not_isSome_iff_eq_none.mp h)

/-- C5 (amended).  A heartbeat POST succeeds for EVERY worker id — known
or unknown — and upserts the reported data into the registry under that
id: the handler reads `workerRegistry.get(workerId) || {}` and
unconditionally `set`s the updated entry.  No `UnknownWorkerError` (or any
registration check) exists on this path. -/
theorem heartbeatPost_always_upserts (reg : Registry) (workerId : String)
    (d : HeartbeatData) (t : Int) :
    (heartbeatPost reg workerId d t).1.success = true ∧
    ∃ e, ((heartbeatPost reg workerId d t).2.lookup workerId) = some e ∧
      e.status = d.status ∧ e.currentJobs = d.currentJobs ∧ e.lastSeen = t := by
  refine ⟨rfl, ?_⟩
  simp only [heartbeatPost]
  exact ⟨_, lookup_registrySet reg workerId _, rfl, rfl, rfl⟩

/-- The heartbeat body used in the unknown-worker scenario. -/
def hbC5 : HeartbeatData :=
  { status := WStatus.online, currentJobs := 2
    jobsCompleted := 3, jobsFailed := 1, capabilities := none }

/-- Counterexample for C5 as stated: a heartbeat from a worker id absent
from the registry is processed successfully (no error outcome) and the
unknown worker's data IS recorded in the registry. -/
theorem heartbeat_unknown_worker_counterexample :
    (([] : Registry).lookup "w-unknown") = none ∧
    (heartbeatPost [] "w-unknown" hbC5 0).1.success = true ∧
    (((heartbeatPost [] "w-unknown" hbC5 0).2.lookup "w-unknown")).isSome = true := by
  refine ⟨rfl, rfl, by decide⟩

/-! ### C7 — batch URL generation -/

/-- Indexing into a mapped range. -/
theorem get?_range_map {α : Type} (f : ℕ → α) {i q : ℕ} (h : i < q) :
    (((List.range q).map f).get? i) = some (f i) := by
  rw [List.get?_map, List.get?_range h]
  rfl

/-- C7 (amended).  `generateUrls` is deterministic in the pattern, with
the effective sequential start number being `startNumber || 1` — i.e. 1
when `startNumber` is absent OR equal to 0 (JavaScript falsiness), the
provided value otherwise (`jsOrInt`):

* `sequential` (and a missing pattern object): the `i`-th URL is the
  template (`pattern || baseUrl + "?page={number}"`) with its first
  `{number}` replaced by the effective start number plus `i`;
* `list` with a provided URL list: the `i`-th URL is `urls[i % urls.length]`;
* any other shape: every URL is the base URL. -/
theorem generateUrls_spec (q : Nat) (base : String) (p : UrlPattern) (i : Nat)
    (hi : i < q) :
    (p.ptype = UrlPatternType.sequential →
      ((generateUrls q (some p) base).get? i) =
        some (replaceFirst (jsOrStr p.pattern (base ++ "?page={number}")) "{number}"
          (toString (jsOrInt p.startNumber 1 + (i : Int))))) ∧
    (∀ l, p.urls = some l → p.ptype = UrlPatternType.list →
      ((generateUrls q (some p) base).get? i) = some (jsIndex l (i % l.length))) ∧
    (p.ptype = UrlPatternType.patternStr →
      ((generateUrls q (some p) base).get? i) = some base) ∧
    (p.urls = none → p.ptype ≠ UrlPatternType.sequential →
      ((generateUrls q (some p) base).get? i) = some base) ∧
    (((generateUrls q none base).get? i) =
      some (replaceFirst (base ++ "?page={number}") "{number}" (toString (1 + (i : Int))))) := by
  refine ⟨?_, ?_, ?_, ?_, ?_⟩
  · intro hp
    simp only [generateUrls, if_pos hp]
    exact get?_range_map _ hi
  · intro l hl hp
    have hns : ¬ p.ptype = UrlPatternType.sequential := by rw [hp]; exact nofun
    simp only [generateUrls, if_neg hns, hl, if_pos hp]
    exact get?_range_map _ hi
  · intro hp
    have hns : ¬ p.ptype = UrlPatternType.sequential := by rw [hp]; exact nofun
    have hnl : ¬ p.ptype = UrlPatternType.list := by rw [hp]; exact nofun
    cases hu : p.urls with
    | some l =>
        simp only [generateUrls, if_neg hns, hu, if_neg hnl]
        exact get?_range_map _ hi
    | none =>
        simp only [generateUrls, if_neg hns, hu]
        exact get?_range_map _ hi
  · intro hu hns
    simp only [generateUrls, if_neg hns, hu]
    exact get?_range_map _ hi
  · simp only [generateUrls]
    exact get?_range_map _ hi

/-- The spec's own sequential example: start number 5, template
`https://x.com/p-{number}`. -/
def pSeq5 : UrlPattern :=
  { ptype := UrlPatternType.sequential, urls := none
    startNumber := some 5, pattern := some "https://x.com/p-{number}" }

/-- The same pattern with `startNumber = 0`. -/
def pSeq0 : UrlPattern :=
  { ptype := UrlPatternType.sequential, urls := none
    startNumber := some 0, pattern := some "https://x.com/p-{number}" }

/-- Witness for C7: start number 5, quantity 3 yields exactly
`p-5`, `p-6`, `p-7` in order. -/
theorem generateUrls_spec_witness :
    (2 : Nat) < 3 ∧
    ((generateUrls 3 (some pSeq5) "https://x.com").get? 0) = some "https://x.com/p-5" ∧
    ((generateUrls 3 (some pSeq5) "https://x.com").get? 1) = some "https://x.com/p-6" ∧
    ((generateUrls 3 (some pSeq5) "https://x.com").get? 2) = some "https://x.com/p-7" :=
  ⟨by decide,
    ((generateUrls_spec 3 "https://x.com" pSeq5 0 (by decide)).1 rfl).trans (by decide),
    ((generateUrls_spec 3 "https://x.com" pSeq5 1 (by decide)).1 rfl).trans (by decide),
    ((generateUrls_spec 3 "https://x.com" pSeq5 2 (by decide)).1 rfl).trans (by decide)⟩

/-- Counterexample for C7 as stated: with a PROVIDED `startNumber` of 0,
the generated URL is `p-1`, not the claimed `p-0` — the source computes
`urlPattern?.startNumber || 1`, and JavaScript treats 0 as falsy, so a
provided 0 is silently replaced by the default 1. -/
theorem generateUrls_startNumber_zero_counterexample :
    pSeq0.startNumber = some 0 ∧
    generateUrls 1 (some pSeq0) "https://x.com" = ["https://x.com/p-1"] ∧
    ((generateUrls 1 (some pSeq0) "https://x.com").get? 0) ≠
      some (replaceFirst "https://x.com/p-{number}" "{number}"
        (toString ((0 : Int) + (0 : Int)))) := by
  refine ⟨rfl, by decide, by decide⟩

/-! ### C8 — job cancellation -/

/-- A queued job for the cancellation witness. -/
def jQ8 : JobRec :=
  { id := "j-q8", name := "queued", url := "https://example.com"
    jtype := JType.single, priority := 5, status := JStatus.queued
    assignedWorker := none
    execution :=
      { startTime := none, endTime := none, duration := none
        attempts := 0, lastAttempt := none }
    tags := [], updatedAt := 0 }

/-- A completed (terminal) job. -/
def jC8 : JobRec :=
  { id := "j-c8", name := "done", url := "https://example.com"
    jtype := JType.single, priority := 5, status := JStatus.completed
    assignedWorker := none
    execution :=
      { startTime := some 0, endTime := some 9, duration := some 9
        attempts := 1, lastAttempt := some 0 }
    tags := [], updatedAt := 9 }

/-- C8 (amended).  `cancelJob` succeeds exactly when the job id resolves —
regardless of the job's current status — and on success it sets the status
to `cancelled` via the unvalidated `updateStatus`; the DELETE route answers
404 only for a missing job.  Terminal jobs (completed/failed/cancelled)
are therefore re-marked `cancelled` rather than rejected. -/
theorem cancelJob_spec (job? : Option JobRec) (fw : String → Option Worker) (t : Int) :
    ((cancelJob job? fw t).success = true ↔ job?.isSome = true) ∧
    (∀ j, job? = some j →
      (cancelJob job? fw t).job = some (j.updateStatus JStatus.cancelled t)) ∧
    (deleteJobRoute job? fw t = if job?.isSome then 200 else 404) := by
  cases job? with
  | none => simp [cancelJob, deleteJobRoute]
  | some j =>
      refine ⟨?_, ?_, ?_⟩
      · cases hj : j.assignedWorker <;> simp [cancelJob, hj]
      · intro j' hj'
        injection hj' with h
        subst h
        cases hj : j.assignedWorker <;> simp [cancelJob, hj]
      · cases hj : j.assignedWorker <;> simp [deleteJobRoute, cancelJob, hj]

/-- Witness for C8: cancelling an existing queued job succeeds and marks
it `cancelled`. -/
theorem cancelJob_spec_witness :
    (some jQ8).isSome = true ∧
    (cancelJob (some jQ8) (fun _ => none) 4).success = true ∧
    (cancelJob (some jQ8) (fun _ => none) 4).job =
      some (jQ8.updateStatus JStatus.cancelled 4) :=
  ⟨by decide,
    ((cancelJob_spec (some jQ8) (fun _ => none) 4).1).mpr (by decide),
    (cancelJob_spec (some jQ8) (fun _ => none) 4).2.1 jQ8 rfl⟩

/-- Counterexample for C8 as stated: cancelling a COMPLETED job succeeds
(returns `true`, route answers 200) and the job's state is changed to
`cancelled` — the operation is not rejected for terminal states. -/
theorem cancelJob_terminal_state_counterexample :
    jC8.status = JStatus.completed ∧
    (cancelJob (some jC8) (fun _ => none) 20).success = true ∧
    ((cancelJob (some jC8) (fun _ => none) 20).job.map JobRec.status) =
      some JStatus.cancelled ∧
    deleteJobRoute (some jC8) (fun _ => none) 20 = 200 := by
  refine ⟨by decide, by decide, by decide, by decide⟩

/-! ### C9 — priority validation at creation -/

/-- Creation data with priority 11. -/
def dP11 : CreateJobData :=
  { name := "n", url := "https://example.com"
    jtype := some JType.scheduled, priority := some 11, tags := [] }

/-- Creation data with priority 0. -/
def dP0 : CreateJobData := { dP11 with priority := some 0 }

/-- Creation data with priority 7. -/
def dP7 : CreateJobData := { dP11 with priority := some 7 }

/-- `updateStatus` never touches the priority. -/
theorem updateStatus_priority (j : JobRec) (s : JStatus) (t : Int) :
    (j.updateStatus s t).priority = j.priority := by
  simp [JobRec.updateStatus]

/-- C9 (amended).  For a well-formed name and URL, a provided priority in
`[1, 10]` is stored unchanged; a provided priority of 0 is falsy under
`jobData.priority || 5` and is stored as the default 5; and any other
out-of-range priority makes creation FAIL with a validation error (the
schema declares `min: 1, max: 10` validators — nothing is clamped). -/
theorem createJob_priority_spec (validUrl : String → Bool) (d : CreateJobData)
    (p : Int) (id : String) (t : Int)
    (hname : ¬ d.name = "" ∧ d.name.length ≤ 255)
    (hurl : validUrl d.url = true)
    (hp : d.priority = some p) :
    (1 ≤ p ∧ p ≤ 10 →
      ∃ j, createJob validUrl d id t = Except.ok j ∧ j.priority = p) ∧
    (p = 0 →
      ∃ j, createJob validUrl d id t = Except.ok j ∧ j.priority = 5) ∧
    (¬ p = 0 → ¬(1 ≤ p ∧ p ≤ 10) →
      createJob validUrl d id t = Except.error "ValidationError: priority") := by
  have hng : ¬ (d.name = "" ∨ 255 < d.name.length) := by
    rintro (h | h)
    · exact hname.1 h
    · omega
  have hug : ¬ ¬ validUrl d.url = true := by simp [hurl]
  refine ⟨?_, ?_, ?_⟩
  · rintro ⟨h1, h2⟩
    have hpz : ¬ p = 0 := by omega
    have hpr : jsOrInt d.priority 5 = p := by
      rw [hp]; simp [jsOrInt, hpz]
    simp only [createJob, hpr, if_neg hng, if_neg hug, if_neg (by omega :
      ¬ ¬ (1 ≤ p ∧ p ≤ 10))]
    refine ⟨_, rfl, ?_⟩
    split
    · rw [updateStatus_priority]
    · rfl
  · intro hpz
    have hpr : jsOrInt d.priority 5 = 5 := by
      rw [hp, hpz]; simp [jsOrInt]
    simp only [createJob, hpr, if_neg hng, if_neg hug, if_neg (by omega :
      ¬ ¬ ((1 : Int) ≤ 5 ∧ (5 : Int) ≤ 10))]
    refine ⟨_, rfl, ?_⟩
    split
    · rw [updateStatus_priority]
    · rfl
  · intro hpz hout
    have hpr : jsOrInt d.priority 5 = p := by
      rw [hp]; simp [jsOrInt, hpz]
    simp only [createJob, hpr, if_neg hng, if_neg hug, if_pos hout]

/-- Witness for C9: an in-range priority 7 is stored unchanged. -/
theorem createJob_priority_spec_witness :
    (¬ dP7.name = "" ∧ dP7.name.length ≤ 255) ∧
    dP7.priority = some 7 ∧
    (∃ j, createJob (fun _ => true) dP7 "id-7" 0 = Except.ok j ∧ j.priority = 7) :=
  ⟨⟨by decide, by decide⟩, rfl,
    (createJob_priority_spec (fun _ => true) dP7 7 "id-7" 0
      ⟨by decide, by decide⟩ rfl rfl).1 (by decide)⟩

/-- Counterexample for C9 as stated: priority 11 is not clamped to 10 —
creation fails outright — and priority 0 is not clamped to 1 — it is
stored as the default 5. -/
theorem createJob_priority_clamp_counterexample :
    dP11.priority = some 11 ∧
    (createJob (fun _ => true) dP11 "id-11" 0).toOption = none ∧
    dP0.priority = some 0 ∧
    ((createJob (fun _ => true) dP0 "id-0" 0).toOption.map JobRec.priority) = some 5 := by
  refine ⟨rfl, by decide, rfl, by decide⟩

/-! ### C10 — batch jobs are always scheduled -/

/-- Any successful creation from batch job data (whose declared type is
`scheduled`) yields a `scheduled`, still-`pending` job: the immediate
queueing path of `createJob` is reserved for type `single`. -/
theorem createJob_scheduled_props (validUrl : String → Bool) (d : CreateJobData)
    (id : String) (t : Int) (j : JobRec)
    (hd : d.jtype = some JType.scheduled)
    (h : createJob validUrl d id t = Except.ok j) :
    j.jtype = JType.scheduled ∧ j.status = JStatus.pending := by
  simp only [createJob, hd, Option.getD_some] at h
  split at h
  · cases h
  · split at h
    · cases h
    · split at h
      · cases h
      · rw [if_neg (by exact nofun : ¬ JType.scheduled = JType.single)] at h
        injection h with h
        subst h
        exact ⟨rfl, rfl⟩

/-- Every prefix of the batch loop preserves "all created jobs are
scheduled and pending". -/
theorem batchFold_scheduled (validUrl : String → Bool) (idGen : Nat → String)
    (b : BatchJobCreationData) (now : Int) (l : List Nat)
    (acc : List JobRec × List String)
    (hacc : ∀ j ∈ acc.1, j.jtype = JType.scheduled ∧ j.status = JStatus.pending) :
    ∀ j ∈ (l.foldl (batchStep validUrl idGen b now) acc).1,
      j.jtype = JType.scheduled ∧ j.status = JStatus.pending := by
  induction l generalizing acc with
  | nil => simpa using hacc
  | cons i rest ih =>
      simp only [List.foldl_cons]
      refine ih (batchStep validUrl idGen b now acc i) ?_
      intro j hj
      unfold batchStep at hj
      cases hres : createJob validUrl (batchJobDataAt b i now) (idGen i) now with
      | ok jj =>
          rw [hres] at hj
          simp only at hj
          rcases List.mem_append.mp hj with hm | hm
          · exact hacc j hm
          · have : j = jj := by simpa using hm
            subst this
            exact createJob_scheduled_props validUrl _ _ _ j rfl hres
      | error e =>
          rw [hres] at hj
          exact hacc j hj

/-- C10 (confirmed).  Every job created through `createBatchJobs` has type
`scheduled` — the loop overrides the base job's declared type — and is
left in status `pending`: no batch-created job takes the single-job path
that immediately transitions a fresh job to `queued`. -/
theorem createBatchJobs_all_scheduled (validUrl : String → Bool)
    (idGen : Nat → String) (b : BatchJobCreationData) (now : Int) :
    ∀ j ∈ (createBatchJobs validUrl idGen b now).1,
      j.jtype = JType.scheduled ∧ j.status = JStatus.pending := by
  unfold createBatchJobs
  exact batchFold_scheduled validUrl idGen b now (List.range b.quantity) ([], [])
    (by intro j hj; simp at hj)

/-- The concrete one-job batch used by the C10 witness. -/
def bB10 : BatchJobCreationData :=
  { baseJob :=
      { name := "T", url := "https://e.com"
        jtype := some JType.single, priority := some 4, tags := [] }
    quantity := 1, urlPattern := none, namePattern := none, variations := none }

/-- The job `bB10` expands to. -/
def jB10 : JobRec :=
  { id := "id0", name := "T 1", url := "https://e.com?page=1"
    jtype := JType.scheduled, priority := 4, status := JStatus.pending
    assignedWorker := none
    execution :=
      { startTime := none, endTime := none, duration := none
        attempts := 0, lastAttempt := none }
    tags := ["batch-job", "batch-0"], updatedAt := 0 }

/-- Witness for C10: the single job of a concrete batch — declared
`single` on the base job — comes out `scheduled` and `pending`. -/
theorem createBatchJobs_all_scheduled_witness :
    jB10 ∈ (createBatchJobs (fun _ => true) (fun i => "id" ++ toString i) bB10 0).1 ∧
    (jB10.jtype = JType.scheduled ∧ jB10.status = JStatus.pending) :=
  ⟨by decide,
    createBatchJobs_all_scheduled (fun _ => true) (fun i => "id" ++ toString i)
      bB10 0 jB10 (by decide)⟩

end AutoSuite
